import Mathlib

/-!
Shallow embedding of the classification engine of the EHMatrix-TODO
repository (src/EisenhowerMatrix.tsx and its db module): heuristic
urgency/importance scoring, quadrant decision, borderline detection,
badge/reasoning generation, text sanitization, and the refinement
client's result handling.

Text matching in the source uses JavaScript regular expressions; they
are embedded here by a small backtracking matcher with JS semantics
(leftmost match, greedy quantifiers tried longest-first, zero-width
word-boundary assertions), specialised to the pattern shapes the
source uses: character-class repetitions, literals, alternation,
optional atoms and word boundaries.

Dates are embedded as integer millisecond timestamps, exactly the
values JavaScript's Date.getTime exposes; a real-division comparison
ms / 86400000 <= k in the source is rendered as ms <= k * 86400000,
which is equivalent for a positive divisor.
-/

namespace EHM

/-- Word characters of JavaScript regex word-boundary semantics:
ASCII letters, ASCII digits and underscore. -/
def isWordChar (c : Char) : Bool :=
  c.isAlpha || c.isDigit || c == '_'

/-- Word-boundary test between the previously consumed character (none at
the start of the string) and the next character (none at the end). -/
def atBoundary (prev : Option Char) (s : List Char) : Bool :=
  let a := match prev with | some c => isWordChar c | none => false
  let b := match s with | c :: _ => isWordChar c | [] => false
  a != b

/-- Regex abstract syntax covering the pattern shapes of the source:
character classes, concatenation, alternation, greedy option, greedy
counted repetition of a character class, and the word boundary. -/
inductive Rx where
  | eps : Rx
  | ch (p : Char → Bool) : Rx
  | seq (a b : Rx) : Rx
  | alt (a b : Rx) : Rx
  | opt (a : Rx) : Rx
  | rep (p : Char → Bool) (lo : Nat) (hi : Option Nat) : Rx
  | wb : Rx

/-- Length of the maximal run of characters satisfying p at the front. -/
def runLen (p : Char → Bool) : List Char → Nat
  | [] => 0
  | c :: cs => if p c then runLen p cs + 1 else 0

/-- Drop n characters, also returning the last dropped character (or the
incoming previous character when n = 0), for boundary checks. -/
def dropWithPrev : Option Char → List Char → Nat → Option Char × List Char
  | prev, s, 0 => (prev, s)
  | prev, [], _ + 1 => (prev, [])
  | _, c :: cs, n + 1 => dropWithPrev (some c) cs n

/-- Greedy repetition: try consuming n characters first, then n - 1, down
to lo, invoking the continuation at each length; first success wins,
mirroring the backtracking order of a greedy JS quantifier. -/
def tryCounts (k : Option Char → List Char → Option (List Char))
    (prev : Option Char) (s : List Char) (lo : Nat) : Nat → Option (List Char)
  | 0 => if lo = 0 then k prev s else none
  | n + 1 =>
    if n + 1 < lo then none
    else
      (let pr := dropWithPrev prev s (n + 1); k pr.1 pr.2) <|> tryCounts k prev s lo n

/-- Backtracking matcher in continuation-passing style. The continuation
receives the last consumed character and the remaining input; the overall
result is the remaining input after the first (JS-priority) full match. -/
def matchRx : Rx → Option Char → List Char → (Option Char → List Char → Option (List Char)) → Option (List Char)
  | .eps, prev, s, k => k prev s
  | .ch p, _, s, k =>
    match s with
    | [] => none
    | c :: cs => if p c then k (some c) cs else none
  | .seq a b, prev, s, k => matchRx a prev s (fun p1 s1 => matchRx b p1 s1 k)
  | .alt a b, prev, s, k => matchRx a prev s k <|> matchRx b prev s k
  | .opt a, prev, s, k => matchRx a prev s k <|> k prev s
  | .rep p lo hi, prev, s, k =>
    let cap := match hi with
      | none => runLen p s
      | some h => min (runLen p s) h
    tryCounts k prev s lo cap
  | .wb, prev, s, k => if atBoundary prev s then k prev s else none

/-- Remaining input after a match of rx starting exactly here, if any. -/
def matchHere (rx : Rx) (prev : Option Char) (s : List Char) : Option (List Char) :=
  matchRx rx prev s (fun _ s1 => some s1)

/-- Existence of a match at any start position (JS RegExp.test). -/
def searchFrom (rx : Rx) : Option Char → List Char → Bool
  | prev, [] => (matchHere rx prev []).isSome
  | prev, c :: cs => (matchHere rx prev (c :: cs)).isSome || searchFrom rx (some c) cs

/-- Test of a regex against a whole string, as JS RegExp.test. -/
def testRx (rx : Rx) (s : List Char) : Bool :=
  searchFrom rx none s

/-- Leftmost match: the text before it, the matched text (never empty;
the source's patterns cannot match the empty string) and the rest. -/
def findFirstFrom (rx : Rx) : Option Char → List Char → List Char → Option (List Char × List Char × List Char)
  | _, _, [] => none
  | prev, acc, c :: cs =>
    match matchHere rx prev (c :: cs) with
    | some rest =>
      let len := (c :: cs).length - rest.length
      if len = 0 then findFirstFrom rx (some c) (c :: acc) cs
      else some (acc.reverse, (c :: cs).take len, rest)
    | none => findFirstFrom rx (some c) (c :: acc) cs

/-- Replace every non-overlapping leftmost match (JS String.replace with
the g flag); the replacement text is not rescanned, and scanning resumes
after the matched text with the correct boundary context. The fuel
argument only serves termination and is amply sufficient, since every
match consumes at least one character. -/
def replaceAllAux (rx : Rx) (repl : List Char) : Nat → Option Char → List Char → List Char
  | 0, _, s => s
  | fuel + 1, prev, s =>
    match findFirstFrom rx prev [] s with
    | none => s
    | some (pre, matched, rest) =>
      let newPrev := match matched.reverse with
        | c :: _ => some c
        | [] => prev
      pre ++ repl ++ replaceAllAux rx repl fuel newPrev rest

/-- Global regex replacement over a character list. -/
def replaceAll (rx : Rx) (repl : List Char) (s : List Char) : List Char :=
  replaceAllAux rx repl (s.length + 1) none s

/-- Single-character literal. -/
def lit1 (c : Char) : Rx := .ch (fun x => x == c)

/-- Literal string as a regex. -/
def lit : List Char → Rx
  | [] => .eps
  | c :: cs => .seq (lit1 c) (lit cs)

/-- Concatenation of a list of regexes. -/
def seqs : List Rx → Rx
  | [] => .eps
  | r :: rs => .seq r (seqs rs)

/-- Alternation of a list of regexes, leftmost alternative first. -/
def alts : List Rx → Rx
  | [] => .ch (fun _ => false)
  | [r] => r
  | r :: rs => .alt r (alts rs)

/-! Patterns of the source, one definition per JS regex literal. -/

/-- Character class of the email local part: [A-Za-z0-9._%+-]. -/
def emailLocalC (c : Char) : Bool :=
  c.isAlpha || c.isDigit || c == '.' || c == '_' || c == '%' || c == '+' || c == '-'

/-- Character class of the email domain part: [A-Za-z0-9.-]. -/
def emailDomainC (c : Char) : Bool :=
  c.isAlpha || c.isDigit || c == '.' || c == '-'

/-- Email pattern of sanitizeForModel:
[A-Za-z0-9._%+-]+@[A-Za-z0-9.-]+\.[A-Za-z]{2,}. -/
def emailRx : Rx :=
  seqs [.rep emailLocalC 1 none, lit1 '@', .rep emailDomainC 1 none,
    lit1 '.', .rep Char.isAlpha 2 none]

/-- Character class of the phone tail: [\d \-()]. -/
def phoneC (c : Char) : Bool :=
  c.isDigit || c == ' ' || c == '-' || c == '(' || c == ')'

/-- Phone pattern of sanitizeForModel: \b\+?\d[\d \-()]{6,}\b. -/
def phoneRx : Rx :=
  seqs [.wb, .opt (lit1 '+'), .ch Char.isDigit, .rep phoneC 6 none, .wb]

/-- Non-whitespace class \S, over the whitespace characters relevant to
the embedded texts (space, tab, newline, carriage return, vertical tab,
form feed). -/
def nonSpaceC (c : Char) : Bool :=
  !(c == ' ' || c == '\t' || c == '\n' || c == '\r' || c == '\x0b' || c == '\x0c')

/-- URL pattern of sanitizeForModel: https?:\/\/\S+. -/
def urlRx : Rx :=
  seqs [lit ['h', 't', 't', 'p'], .opt (lit1 's'), lit [':', '/', '/'],
    .rep nonSpaceC 1 none]

/-- Character class [A-Z0-9]. -/
def upperDigitC (c : Char) : Bool :=
  c.isUpper || c.isDigit

/-- Opaque-identifier pattern of sanitizeForModel: \b[A-Z0-9]{8,}\b. -/
def idRx : Rx :=
  seqs [.wb, .rep upperDigitC 8 none, .wb]

/-- Urgent-keyword pattern of scoreUrgency: \b(asap|today|eod|tonight)\b,
applied to the lower-cased text. -/
def urgentKwRx : Rx :=
  seqs [.wb,
    alts [lit ['a', 's', 'a', 'p'], lit ['t', 'o', 'd', 'a', 'y'],
      lit ['e', 'o', 'd'], lit ['t', 'o', 'n', 'i', 'g', 'h', 't']],
    .wb]

/-- Clock-time pattern of scoreUrgency and computeBadges:
\b\d{1,2}:\d{2}\b. -/
def timeRx : Rx :=
  seqs [.wb, .rep Char.isDigit 1 (some 2), lit1 ':',
    .rep Char.isDigit 2 (some 2), .wb]

/-- Goal-keyword pattern of scoreImportance and computeBadges:
\b(okr|goal|milestone)\b with the i flag, embedded as a match on the
lower-cased text. -/
def okrRx : Rx :=
  seqs [.wb,
    alts [lit ['o', 'k', 'r'], lit ['g', 'o', 'a', 'l'],
      lit ['m', 'i', 'l', 'e', 's', 't', 'o', 'n', 'e']],
    .wb]

/-- Low-value-phrase pattern of scoreImportance and computeBadges:
\b(clean inbox|file receipts|tweak theme)\b with the i flag, embedded
as a match on the lower-cased text. -/
def lowRx : Rx :=
  seqs [.wb,
    alts [lit "clean inbox".data, lit "file receipts".data,
      lit "tweak theme".data],
    .wb]

/-- Character list of a string, lower-cased character-wise, as the
source's toLowerCase before (or the i flag during) pattern tests. -/
def lowerData (s : String) : List Char :=
  s.data.map Char.toLower

/-- Character-wise lower-casing of a string, the embedding of
JavaScript's String.toLowerCase on the tag strings. -/
def lowerStr (s : String) : String :=
  ⟨s.data.map Char.toLower⟩

/-- Urgent-keyword test on a task text. -/
def hasUrgentKeyword (text : String) : Bool :=
  testRx urgentKwRx (lowerData text)

/-- Clock-time test on a task text. -/
def hasTimeToken (text : String) : Bool :=
  testRx timeRx (lowerData text)

/-- Goal-keyword test on a task text. -/
def hasOkrKeyword (text : String) : Bool :=
  testRx okrRx (lowerData text)

/-- Low-value-phrase test on a task text. -/
def hasLowValuePhrase (text : String) : Bool :=
  testRx lowRx (lowerData text)

/-! Embedded engine functions, one per exported function of the source. -/

/-- Urgency scorer, from scoreUrgency of the db module. Dates are
millisecond timestamps; dueAt is none when the task has no due date,
urgencyHint is none when no numeric hint is stored. -/
def scoreUrgency (dueAt : Option Int) (now : Int) (text : String)
    (urgencyHint : Option Int) : Int :=
  let base : Int :=
    match dueAt with
    | none => 0
    | some due =>
      if due < now then 5
      else if due - now ≤ 0 then 4
      else if due - now ≤ 2 * 86400000 then 3
      else 0
  let u := base
    + (if hasUrgentKeyword text then 3 else 0)
    + (if hasTimeToken text then 1 else 0)
    + (match urgencyHint with | some h => h | none => 0)
  max 0 (min 5 u)

/-- High-value tag set of scoreImportance. -/
def highValueTags : List String :=
  ["clinic", "patients", "finance", "safety", "learning-core"]

/-- Importance scorer, from scoreImportance of the db module. The
source's (estimateMins || 0) coerces a missing estimate to 0 and leaves
every other number unchanged. -/
def scoreImportance (text : String) (tags : List String)
    (estimateMins : Option Int) (importanceHint : Option Int) : Int :=
  let tagsL := tags.map lowerStr
  let i : Int :=
    (if tagsL.any (fun x => highValueTags.contains x) then 3 else 0)
    + (if hasOkrKeyword text then 2 else 0)
    + (if 60 ≤ estimateMins.getD 0 then 1 else 0)
    - (if hasLowValuePhrase text then 2 else 0)
    + (match importanceHint with | some h => h | none => 0)
  max 0 (min 5 i)

/-- Quadrant decision table, from decideQuadrant of the db module. -/
def decideQuadrant (u i : Int) : String :=
  if 3 ≤ u ∧ 3 ≤ i then "do"
  else if u ≤ 2 ∧ 3 ≤ i then "schedule"
  else if 3 ≤ u ∧ i ≤ 2 then "delegate"
  else "eliminate"

/-- Badge builder, from computeBadges of the db module; successive
Array.push calls are rendered as list concatenation in the same order. -/
def computeBadges (text : String) (dueAt : Option Int) (now : Int)
    (tags : List String) (estimateMins : Option Int) : List String :=
  (match dueAt with
   | none => []
   | some due =>
     if due < now then ["overdue"]
     else if due - now ≤ 0 then ["today"]
     else if due - now ≤ 2 * 86400000 then ["due<48h"]
     else [])
  ++ (if hasTimeToken text then ["time"] else [])
  ++ tags.map lowerStr
  ++ (if hasOkrKeyword text then ["okr"] else [])
  ++ (if 60 ≤ estimateMins.getD 0 then ["deep"] else [])
  ++ (if hasLowValuePhrase text then ["low"] else [])

/-- Borderline detector, from isBorderline of the db module. -/
def isBorderline (u i : Int) (q : String) : Bool :=
  let edge := decide (u = 2) || decide (u = 3) || decide (i = 2) || decide (i = 3)
  let sumGate := decide (4 ≤ u + i) && decide (u + i ≤ 7)
  let flipCandidate :=
    (decide (q = "do") && (decide (u = 3) && decide (i = 3))) ||
    (decide (q = "schedule") && (decide (u = 2) && decide (3 ≤ i))) ||
    (decide (q = "delegate") && (decide (3 ≤ u) && decide (i = 2))) ||
    (decide (q = "eliminate") && (decide (u ≤ 2) && decide (i ≤ 2)))
  (edge && sumGate) || flipCandidate

/-- Reasoning builder, from buildReasoning of the db module; the
source's slice(0, 277) + an ellipsis character is rendered at character
level. -/
def buildReasoning (badges : List String) : String :=
  let s := String.intercalate "; " badges
  if s.length > 280 then ⟨s.data.take 277 ++ ['…']⟩ else s

/-- Sanitizer, from sanitizeForModel of the component module: four
chained global replacements, email, then phone, then URL, then opaque
identifier. -/
def sanitizeForModel (s : String) : String :=
  ⟨replaceAll idRx "[id]".data
    (replaceAll urlRx "[url]".data
      (replaceAll phoneRx "[phone]".data
        (replaceAll emailRx "[email]".data s.data)))⟩

/-- JSON value of the parsed refinement reply's reasoning field: a
string, or any other JSON value. -/
inductive JsonVal where
  | str (s : String) : JsonVal
  | other : JsonVal

/-- Parsed refinement reply, the shape JSON.parse yields in
refineWithOllama: an optional quadrant field (none when absent or null)
and an optional reasoning field. -/
structure OllamaParsed where
  quadrant : Option String
  reasoning : Option JsonVal

/-- Observable outcome of the fetch to the refinement service: failure
covers a network error and the timeout-triggered abort (both reject the
fetch); reply carries the HTTP ok flag and the parse result of the
response body, none when either JSON step throws. -/
inductive FetchOutcome where
  | failure : FetchOutcome
  | reply (ok : Bool) (parsed : Option OllamaParsed) : FetchOutcome

/-- Refinement client result handling, from refineWithOllama of the
component module, as a total function of the heuristic quadrant and the
fetch outcome; totality embeds the always-resolves, never-throws
contract. The source's (parsed.quadrant || heuristic) falls back on a
missing quadrant and on the falsy empty string. -/
def refineWithOllama (heuristic : String) (outcome : FetchOutcome) : String × String :=
  match outcome with
  | .failure => (heuristic, "offline fallback")
  | .reply ok parsed =>
    if !ok then (heuristic, "offline fallback")
    else
      match parsed with
      | none => (heuristic, "offline fallback")
      | some p =>
        let q := match p.quadrant with
          | some s => if s = "" then heuristic else s
          | none => heuristic
        let reason := match p.reasoning with
          | some (.str s) => s
          | _ => "refined"
        (q, reason)

/-- Reasoning update of addTask in the component module when refinement
ran: append the LLM fragment behind a separator (omitted when the
heuristic reasoning is empty, the source's truthiness test) and cut to
280 characters, the source's slice(0, 280). -/
def addTaskReasoning (reasoning llm : String) : String :=
  ⟨(reasoning ++ (if reasoning = "" then "" else " | ") ++ "LLM: " ++ llm).data.take 280⟩

/-! Theorems, one per claim. -/

/-- C1: decideQuadrant is a total pure function of (urgency, importance):
on every integer pair of the [0,5] x [0,5] grid it returns one of the
four labels, the label characterizations of the ordered decision table
hold as exact descriptions of the four rule regions (so the regions
partition the grid with no gap and no overlap), and in particular
urgency 3, importance 2 yields delegate. -/
theorem decideQuadrant_total_partition :
    (∀ u i : Int, 0 ≤ u → u ≤ 5 → 0 ≤ i → i ≤ 5 →
      ((decideQuadrant u i = "do" ∨ decideQuadrant u i = "schedule" ∨
        decideQuadrant u i = "delegate" ∨ decideQuadrant u i = "eliminate") ∧
       (decideQuadrant u i = "do" ↔ (3 ≤ u ∧ 3 ≤ i)) ∧
       (decideQuadrant u i = "schedule" ↔ (u ≤ 2 ∧ 3 ≤ i)) ∧
       (decideQuadrant u i = "delegate" ↔ (3 ≤ u ∧ i ≤ 2)) ∧
       (decideQuadrant u i = "eliminate" ↔ (u ≤ 2 ∧ i ≤ 2)))) ∧
    decideQuadrant 3 2 = "delegate" := by
  constructor
  · intro u i hu0 hu5 hi0 hi5
    interval_cases u <;> interval_cases i <;> decide
  · decide

/-- Witness for C1 at the concrete grid point (3, 2). -/
theorem decideQuadrant_total_partition_witness :
    decideQuadrant 3 2 = "delegate" ∧
      (decideQuadrant 3 2 = "delegate" ↔ (3 ≤ (3 : Int) ∧ (2 : Int) ≤ 2)) :=
  ⟨decideQuadrant_total_partition.2,
    (decideQuadrant_total_partition.1 3 2 (by decide) (by decide) (by decide)
      (by decide)).2.2.2.1⟩

/-- C4: isBorderline returns true exactly when one of its two gates
holds: the edge-and-sum gate (one of the scores equals 2 or 3, and the
sum lies between 4 and 7 inclusive), or the flip-candidate gate on the
already-decided quadrant. -/
theorem isBorderline_iff (u i : Int) (q : String) :
    isBorderline u i q = true ↔
      (((u = 2 ∨ u = 3 ∨ i = 2 ∨ i = 3) ∧ (4 ≤ u + i ∧ u + i ≤ 7)) ∨
       ((q = "do" ∧ u = 3 ∧ i = 3) ∨
        (q = "schedule" ∧ u = 2 ∧ 3 ≤ i) ∨
        (q = "delegate" ∧ 3 ≤ u ∧ i = 2) ∨
        (q = "eliminate" ∧ u ≤ 2 ∧ i ≤ 2))) := by
  unfold isBorderline
  simp only [Bool.or_eq_true, Bool.and_eq_true, decide_eq_true_eq, or_assoc]

/-- C10: every grid point the heuristic sends to eliminate is
borderline: the flip-candidate gate's eliminate clause covers the whole
eliminate region, clearly-low pairs such as (0, 0) included, so every
heuristically-eliminated task is eligible for refinement when the
opt-in is enabled. -/
theorem eliminate_always_borderline (u i : Int)
    (hu0 : 0 ≤ u) (hu5 : u ≤ 5) (hi0 : 0 ≤ i) (hi5 : i ≤ 5) :
    decideQuadrant u i = "eliminate" → isBorderline u i "eliminate" = true := by
  interval_cases u <;> interval_cases i <;> decide

/-- Witness for C10 at the clearly-low pair (0, 0). -/
theorem eliminate_always_borderline_witness :
    isBorderline 0 0 "eliminate" = true :=
  eliminate_always_borderline 0 0 (by decide) (by decide) (by decide) (by decide)
    (by decide)

/-- Bounds of the source's final clamp Math.max(0, Math.min(5, x)). -/
theorem clamp_bounds (x : Int) : 0 ≤ max 0 (min 5 x) ∧ max 0 (min 5 x) ≤ 5 :=
  ⟨le_max_left 0 _, max_le (by norm_num) (min_le_left 5 x)⟩

/-- C2: scoreUrgency equals the clamp to [0, 5] of a base determined by
the due date (5 when strictly past, 4 when the millisecond delta is at
most zero but not strictly past, 3 when the delta is within 2 days, 0
otherwise and when there is no due date), plus 3 for an urgent keyword,
plus 1 for a clock-time token, plus the hint verbatim; the result lies
in [0, 5] for every input, hints of +1000 and -1000 included. -/
theorem scoreUrgency_spec :
    (∀ (dueAt : Option Int) (now : Int) (text : String) (hint : Option Int),
      (0 ≤ scoreUrgency dueAt now text hint ∧ scoreUrgency dueAt now text hint ≤ 5) ∧
      scoreUrgency dueAt now text hint =
        max 0 (min 5
          ((match dueAt with
            | none => (0 : Int)
            | some due =>
              if due < now then 5
              else if due ≤ now then 4
              else if due - now ≤ 2 * 86400000 then 3
              else 0)
           + (if hasUrgentKeyword text then 3 else 0)
           + (if hasTimeToken text then 1 else 0)
           + hint.getD 0))) ∧
    scoreUrgency none 0 "" (some 1000) = 5 ∧
    scoreUrgency none 0 "" (some (-1000)) = 0 := by
  refine ⟨fun dueAt now text hint => ⟨clamp_bounds _, ?_⟩, by decide, by decide⟩
  cases dueAt with
  | none => cases hint <;> rfl
  | some due =>
    cases hint with
    | none => simp only [scoreUrgency, Option.getD_none, sub_nonpos]
    | some h => simp only [scoreUrgency, Option.getD_some, sub_nonpos]

/-- C3: scoreImportance equals the clamp to [0, 5] of 3 for a
high-value tag (compared lower-cased), plus 2 for a goal keyword, plus
1 for an estimate of at least 60 minutes, minus 2 for a low-value
phrase, plus the hint verbatim; the clamp's floor keeps the result
non-negative, and tags ["finance"] with estimate 90 yield 4. -/
theorem scoreImportance_spec :
    (∀ (text : String) (tags : List String) (est hint : Option Int),
      (0 ≤ scoreImportance text tags est hint ∧ scoreImportance text tags est hint ≤ 5) ∧
      scoreImportance text tags est hint =
        max 0 (min 5
          ((if (tags.map lowerStr).any (fun x => highValueTags.contains x) then 3 else 0)
           + (if hasOkrKeyword text then 2 else 0)
           + (if 60 ≤ est.getD 0 then 1 else 0)
           - (if hasLowValuePhrase text then 2 else 0)
           + hint.getD 0))) ∧
    scoreImportance "" ["finance"] (some 90) none = 4 := by
  refine ⟨fun text tags est hint => ⟨clamp_bounds _, ?_⟩, by decide⟩
  cases hint <;> rfl

/-- C5: the refinement call is a total function of the heuristic label
and the observable fetch outcome (so it always resolves, and nothing is
thrown to the caller); every failure cause — network error or
timeout-abort, non-ok HTTP status, unparseable body — yields exactly
(heuristic, "offline fallback") with no distinction between causes,
and a parsed reply yields the suggested quadrant (the heuristic when
the label is missing or empty, JS falsiness) and the stated reasoning
(the marker "refined" when missing or not a string). -/
theorem refineWithOllama_spec (heuristic : String) :
    refineWithOllama heuristic .failure = (heuristic, "offline fallback") ∧
    (∀ parsed, refineWithOllama heuristic (.reply false parsed) =
      (heuristic, "offline fallback")) ∧
    refineWithOllama heuristic (.reply true none) = (heuristic, "offline fallback") ∧
    (∀ p : OllamaParsed,
      refineWithOllama heuristic (.reply true (some p)) =
        ((match p.quadrant with
          | some s => if s = "" then heuristic else s
          | none => heuristic),
         (match p.reasoning with
          | some (JsonVal.str s) => s
          | _ => "refined"))) :=
  ⟨rfl, fun _ => rfl, rfl, fun _ => rfl⟩

/-- C7: computeBadges emits, in order, at most one of the mutually
exclusive due-date badges (overdue when strictly past, else today when
the delta is at most zero, else due<48h within 2 days), then time on a
clock token, then one lower-cased badge per tag in the given order,
then okr, then deep for an estimate of at least 60 minutes, then low;
nothing is deduplicated, so a tag equal to a keyword badge duplicates
it, as at text "hit the okr" with tag okr. -/
theorem computeBadges_spec :
    (∀ (text : String) (dueAt : Option Int) (now : Int) (tags : List String)
        (est : Option Int),
      computeBadges text dueAt now tags est =
        (match dueAt with
         | none => []
         | some due =>
           if due < now then ["overdue"]
           else if due ≤ now then ["today"]
           else if due - now ≤ 2 * 86400000 then ["due<48h"]
           else [])
        ++ (if hasTimeToken text then ["time"] else [])
        ++ tags.map lowerStr
        ++ (if hasOkrKeyword text then ["okr"] else [])
        ++ (if 60 ≤ est.getD 0 then ["deep"] else [])
        ++ (if hasLowValuePhrase text then ["low"] else [])) ∧
    computeBadges "hit the okr" none 0 ["okr"] none = ["okr", "okr"] := by
  refine ⟨fun text dueAt now tags est => ?_, by decide⟩
  cases dueAt with
  | none => rfl
  | some due => simp only [computeBadges, sub_nonpos]

/-- C8: buildReasoning returns the badges joined by a semicolon-space
separator unchanged when that join has at most 280 characters, and
otherwise its 277-character prefix with an appended ellipsis marker, so
its result never exceeds 280 characters; and the reasoning string
addTask stores after refinement, the join plus an LLM fragment suffix
cut at 280, also never exceeds 280 characters. -/
theorem buildReasoning_spec :
    (∀ badges : List String,
      (buildReasoning badges =
        if (String.intercalate "; " badges).length ≤ 280 then
          String.intercalate "; " badges
        else ⟨(String.intercalate "; " badges).data.take 277 ++ ['…']⟩) ∧
      (buildReasoning badges).length ≤ 280) ∧
    (∀ reasoning llm : String, (addTaskReasoning reasoning llm).length ≤ 280) := by
  refine ⟨fun badges => ?_, fun reasoning llm => ?_⟩
  · have heq : buildReasoning badges =
        if (String.intercalate "; " badges).length ≤ 280 then
          String.intercalate "; " badges
        else ⟨(String.intercalate "; " badges).data.take 277 ++ ['…']⟩ := by
      unfold buildReasoning
      dsimp only
      by_cases h : (String.intercalate "; " badges).length ≤ 280
      · rw [if_neg (by omega), if_pos h]
      · rw [if_pos (by omega), if_neg h]
    refine ⟨heq, ?_⟩
    rw [heq]
    split_ifs with h
    · exact h
    · show ((String.intercalate "; " badges).data.take 277 ++ ['…']).length ≤ 280
      rw [List.length_append, List.length_take]
      simp only [List.length_singleton]
      omega
  · show ((reasoning ++ (if reasoning = "" then "" else " | ") ++ "LLM: " ++ llm).data.take 280).length ≤ 280
    rw [List.length_take]
    omega

/-- C6: the sanitizer is exactly the chain of the four global
replacements in source order — email, phone, URL, long
uppercase-alphanumeric token — each substituting its fixed placeholder;
the sentence from the spec redacts to its email and phone placeholders,
and an email whose local part and domain would fall to the long-token
rule on their own is redacted whole by the earlier email rule instead
of being partially destroyed, likewise a URL holding a long token. -/
theorem sanitizeForModel_spec :
    (∀ s : String,
      sanitizeForModel s =
        ⟨replaceAll idRx "[id]".data
          (replaceAll urlRx "[url]".data
            (replaceAll phoneRx "[phone]".data
              (replaceAll emailRx "[email]".data s.data)))⟩) ∧
    sanitizeForModel "contact me at a@b.com or 415-555-0101" =
      "contact me at [email] or [phone]" ∧
    sanitizeForModel "ABCDEFGH123@EXAMPLE.COM" = "[email]" ∧
    sanitizeForModel "see https://example.com/ABCDEFGH now" = "see [url] now" :=
  ⟨fun _ => rfl, by decide, by decide, by decide⟩

/-- Absence of any match of a pattern in a character list. -/
def noMatch (rx : Rx) (s : List Char) : Bool :=
  (findFirstFrom rx none [] s).isNone

/-- Helper: a global replacement leaves a string without any match of
the pattern unchanged. -/
theorem replaceAll_of_noMatch (rx : Rx) (repl s : List Char)
    (h : noMatch rx s = true) : replaceAll rx repl s = s := by
  have h1 : findFirstFrom rx none [] s = none := by
    simpa [noMatch, Option.isNone_iff_eq_none] using h
  unfold replaceAll replaceAllAux
  rw [h1]

/-- Helper: the sanitizer fixes every string free of all four pattern
classes. -/
theorem sanitizeForModel_fixed (s : String)
    (he : noMatch emailRx s.data = true) (hp : noMatch phoneRx s.data = true)
    (hu : noMatch urlRx s.data = true) (hi : noMatch idRx s.data = true) :
    sanitizeForModel s = s := by
  unfold sanitizeForModel
  rw [replaceAll_of_noMatch _ _ _ he, replaceAll_of_noMatch _ _ _ hp,
    replaceAll_of_noMatch _ _ _ hu, replaceAll_of_noMatch _ _ _ hi]

/-- C9: on every input free of the four redaction pattern classes
(email, phone, URL, long uppercase-alphanumeric token), applying the
sanitizer twice yields the same result as applying it once. -/
theorem sanitizeForModel_idempotent_on_clean (s : String)
    (he : noMatch emailRx s.data = true) (hp : noMatch phoneRx s.data = true)
    (hu : noMatch urlRx s.data = true) (hi : noMatch idRx s.data = true) :
    sanitizeForModel (sanitizeForModel s) = sanitizeForModel s := by
  simp only [sanitizeForModel_fixed s he hp hu hi]

/-- Witness for C9 at a concrete pattern-free input. -/
theorem sanitizeForModel_idempotent_on_clean_witness :
    (noMatch emailRx ("reply to the board tomorrow".data) = true ∧
     noMatch phoneRx ("reply to the board tomorrow".data) = true ∧
     noMatch urlRx ("reply to the board tomorrow".data) = true ∧
     noMatch idRx ("reply to the board tomorrow".data) = true) ∧
    sanitizeForModel (sanitizeForModel "reply to the board tomorrow") =
      sanitizeForModel "reply to the board tomorrow" :=
  ⟨⟨by decide, by decide, by decide, by decide⟩,
    sanitizeForModel_idempotent_on_clean "reply to the board tomorrow"
      (by decide) (by decide) (by decide) (by decide)⟩

end EHM
